import Mathlib

/-!
Shallow embedding of the notes REST API of this repository.

The repository contains two near-duplicate Express servers over a Mongoose
document store:

* `src/index.js` — the main server.  It declares `noteSchema` with fields
  `title` (String, trim, default empty), `content` (String, required, trim),
  `category` (String, enum Work/Ideas/Shopping/Personal, default Personal) and
  `archived` (Boolean, default false), plus automatic `createdAt`/`updatedAt`
  timestamps, and wires the handlers POST `/notes`, GET `/notes`,
  GET `/notes/archived`, PUT `/notes/:id`, PUT `/notes/:id/archive` and
  DELETE `/notes/:id`.  Every `catch` block of these handlers answers 500.
* `src/routes/notes.js` — an alternative router whose create and patch
  handlers answer 400 when the Mongoose save or update validation fails, and
  whose list handlers sort by `createdAt` descending.  The Mongoose model it
  requires (`../models/Note`) is not part of the sources, so its validation
  behaviour is modelled from the spec where needed.

The store is embedded as the list of persisted notes in insertion order
together with the next fresh identifier.  Identifiers are opaque (`Nat`),
timestamps are `Nat` instants passed explicitly to each operation.  Each
HTTP handler becomes a pure function from store, instant and request body to
an HTTP reply (status plus optional returned note) and the successor store.
-/

namespace NotesServer

/-- Whitespace test used by the JavaScript `String.prototype.trim` as far as
the ASCII range relevant here goes. -/
def isJsWs (c : Char) : Bool :=
  c == ' ' || c == '\t' || c == '\n' || c == '\r'

/-- Embedding of the JavaScript `String.prototype.trim` (also the Mongoose
`trim: true` setter): strip leading and trailing whitespace. -/
def jsTrim (s : String) : String :=
  String.mk (((s.data.dropWhile isJsWs).reverse.dropWhile isJsWs).reverse)

/-- The enumerated categories of `noteSchema` in `src/index.js`
(`enum: [Work, Ideas, Shopping, Personal]`). -/
def categories : List String :=
  ["Work", "Ideas", "Shopping", "Personal"]

/-- A persisted note document (`noteSchema` of `src/index.js` with the
automatic timestamp fields). -/
structure Note where
  id : Nat
  title : String
  content : String
  category : String
  archived : Bool
  createdAt : Nat
  updatedAt : Nat
  deriving Repr, DecidableEq

/-- The document store: persisted notes in insertion order, plus the next
fresh identifier the store will assign. -/
structure Store where
  notes : List Note
  nextId : Nat
  deriving Repr, DecidableEq

/-- The JSON body of a create request.  Every field may be absent.  The
`archived` field can be supplied by a client but is never read by the
create handlers. -/
structure CreateBody where
  title : Option String
  content : Option String
  category : Option String
  archived : Option Bool
  deriving Repr, DecidableEq

/-- The JSON body of an update request: the fields the PUT `/notes/:id`
handler of `src/index.js` extracts (`title`, `content`, `category`); an
absent field is `undefined` and is stripped from the Mongoose update. -/
structure UpdateBody where
  title : Option String
  content : Option String
  category : Option String
  deriving Repr, DecidableEq

/-- An HTTP reply: the status code and the note document returned in the
JSON body, when the handler returns one. -/
structure Reply where
  status : Nat
  note : Option Note
  deriving Repr, DecidableEq

/-- JavaScript falsiness of an optional string: `undefined` and the empty
string are falsy (`!content` in `src/index.js`). -/
def jsFalsyStr : Option String → Bool
  | none => true
  | some s => s == ""

/-- The category fallback of the create handler in `src/index.js`
(logical-or with the literal `Personal`): an absent or empty category falls
back to `Personal`. -/
def effCategory : Option String → String
  | none => "Personal"
  | some k => if k == "" then "Personal" else k

/-- The POST `/notes` handler of `src/index.js`: reject falsy `content` with
400 before touching the store; otherwise build the document (trim setters,
category fallback, `archived` defaulting to false) and save it.  A failed
save validation (empty trimmed content, category outside the enum) is caught
and answered with 500; a successful save appends the note, which carries the
fresh id and both timestamps set to the current instant, and answers 201. -/
def createNote (s : Store) (now : Nat) (b : CreateBody) : Reply × Store :=
  match b.content with
  | none => ({ status := 400, note := none }, s)
  | some c =>
    if c == "" then
      ({ status := 400, note := none }, s)
    else
      let t := jsTrim (b.title.getD "")
      let c2 := jsTrim c
      let cat := effCategory b.category
      if c2 == "" then
        ({ status := 500, note := none }, s)
      else if categories.contains cat then
        let n : Note :=
          { id := s.nextId, title := t, content := c2, category := cat,
            archived := false, createdAt := now, updatedAt := now }
        ({ status := 201, note := some n },
         { notes := s.notes ++ [n], nextId := s.nextId + 1 })
      else
        ({ status := 500, note := none }, s)

/-- The GET `/notes` handler of `src/index.js`:
`Note.find(\x7b archived: false \x7d)` with no sort, so the documents come
back in store order. -/
def listActive (s : Store) : List Note :=
  s.notes.filter (fun n => !n.archived)

/-- The GET `/notes/archived` handler of `src/index.js`. -/
def listArchivedNotes (s : Store) : List Note :=
  s.notes.filter (fun n => n.archived)

/-- The lookup behind `Note.findById`: the first (with unique ids, the
only) stored note carrying the requested id. -/
def findById (s : Store) (id : Nat) : Option Note :=
  s.notes.find? (fun n => n.id == id)

/-- Apply `f` to the first note carrying the requested id, keeping the rest
of the store untouched: the write half of `findByIdAndUpdate`. -/
def replaceById (l : List Note) (id : Nat) (f : Note → Note) : List Note :=
  match l with
  | [] => []
  | n :: rest => if n.id == id then f n :: rest else n :: replaceById rest id f

/-- Remove the first note carrying the requested id: the write half of
`findByIdAndDelete`. -/
def removeById (l : List Note) (id : Nat) : List Note :=
  match l with
  | [] => []
  | n :: rest => if n.id == id then rest else n :: removeById rest id

/-- The update validation run by `findByIdAndUpdate` with
`runValidators: true`: a supplied `content` must be non-empty after the trim
setter, a supplied `category` must belong to the enum; absent fields are not
validated.  `title` has no validator. -/
def updOk (b : UpdateBody) : Bool :=
  (match b.content with
   | none => true
   | some c => !(jsTrim c == "")) &&
  (match b.category with
   | none => true
   | some k => categories.contains k)

/-- Apply the supplied fields of an update body to a stored note (trim
setters on `title` and `content`) and refresh `updatedAt`, as
`findByIdAndUpdate` with timestamps does. -/
def applyUpd (n : Note) (b : UpdateBody) (now : Nat) : Note :=
  { n with
    title := match b.title with | none => n.title | some t => jsTrim t
    content := match b.content with | none => n.content | some c => jsTrim c
    category := match b.category with | none => n.category | some k => k
    updatedAt := now }

/-- The PUT `/notes/:id` handler of `src/index.js`: `findByIdAndUpdate` with
`runValidators: true` and `new: true`.  A validation failure is caught and
answered with 500 and the store is untouched; an unknown id answers 404;
otherwise the supplied fields are applied, `updatedAt` is refreshed, and the
updated document is returned with 200. -/
def updateNote (s : Store) (now : Nat) (id : Nat) (b : UpdateBody) :
    Reply × Store :=
  if !updOk b then
    ({ status := 500, note := none }, s)
  else
    match findById s id with
    | none => ({ status := 404, note := none }, s)
    | some n =>
      ({ status := 200, note := some (applyUpd n b now) },
       { s with notes := replaceById s.notes id (fun m => applyUpd m b now) })

/-- The PUT `/notes/:id/archive` handler of `src/index.js`:
`findByIdAndUpdate(id, \x7b archived \x7d, \x7b new: true \x7d)`.  An
`archived` value absent from the body is `undefined` and is stripped from
the update, which then only refreshes `updatedAt`; no validator runs.  An
unknown id answers 404; otherwise the updated document is returned
with 200. -/
def setArchived (s : Store) (now : Nat) (id : Nat) (archived : Option Bool) :
    Reply × Store :=
  match findById s id with
  | none => ({ status := 404, note := none }, s)
  | some n =>
    let f : Note → Note := fun m =>
      match archived with
      | none => { m with updatedAt := now }
      | some a => { m with archived := a, updatedAt := now }
    ({ status := 200, note := some (f n) },
     { s with notes := replaceById s.notes id f })

/-- The DELETE `/notes/:id` handler of `src/index.js` (and of
`src/routes/notes.js`, which is identical up to the error body):
`findByIdAndDelete`; an unknown id answers 404, otherwise the record is
removed and a message is returned with 200. -/
def deleteNote (s : Store) (id : Nat) : Reply × Store :=
  match findById s id with
  | none => ({ status := 404, note := none }, s)
  | some _ => ({ status := 200, note := none },
               { s with notes := removeById s.notes id })

/-- The sort key of `.sort(\x7b createdAt: -1 \x7d)` in
`src/routes/notes.js`: newest first. -/
def newestFirst (a b : Note) : Prop :=
  b.createdAt ≤ a.createdAt

instance : DecidableRel newestFirst :=
  fun a b => inferInstanceAs (Decidable (b.createdAt ≤ a.createdAt))

instance : IsTotal Note newestFirst :=
  ⟨fun a b => Nat.le_total b.createdAt a.createdAt⟩

instance : IsTrans Note newestFirst :=
  ⟨fun _ _ _ h1 h2 => Nat.le_trans h2 h1⟩

/-- The GET `/` handler of `src/routes/notes.js`:
`Note.find(\x7b isArchived: false \x7d).sort(\x7b createdAt: -1 \x7d)` —
the unarchived notes ordered by creation time descending. -/
def listActiveRoutes (s : Store) : List Note :=
  List.insertionSort newestFirst (s.notes.filter (fun n => !n.archived))

/-- Modelled from the spec: the Mongoose model `../models/Note` required by
`src/routes/notes.js` is not among the sources, so its validation follows
the spec — `content` is required and non-empty (after trimming), `title`
defaults to the empty string, `category` defaults to `Personal` and must lie
in the enumerated set, `archived` defaults to false.  The POST `/` handler
of `src/routes/notes.js` builds the document from `title`, `content` and
`category` of the body and saves it; a save validation failure is caught and
answered with 400, a successful save answers 201. -/
def createNoteRoutes (s : Store) (now : Nat) (b : CreateBody) : Reply × Store :=
  let t := jsTrim (b.title.getD "")
  let cat := b.category.getD "Personal"
  match b.content with
  | none => ({ status := 400, note := none }, s)
  | some c =>
    if jsTrim c == "" then
      ({ status := 400, note := none }, s)
    else if categories.contains cat then
      let n : Note :=
        { id := s.nextId, title := t, content := jsTrim c, category := cat,
          archived := false, createdAt := now, updatedAt := now }
      ({ status := 201, note := some n },
       { notes := s.notes ++ [n], nextId := s.nextId + 1 })
    else
      ({ status := 400, note := none }, s)

/-- Modelled from the spec for the missing `../models/Note` validators: the
PATCH `/:id` handler of `src/routes/notes.js` — `findByIdAndUpdate` with
`runValidators: true` and `new: true`, with the validation failure caught
and answered with 400 (unlike the 500 of `src/index.js`). -/
def updateNoteRoutes (s : Store) (now : Nat) (id : Nat) (b : UpdateBody) :
    Reply × Store :=
  if !updOk b then
    ({ status := 400, note := none }, s)
  else
    match findById s id with
    | none => ({ status := 404, note := none }, s)
    | some n =>
      ({ status := 200, note := some (applyUpd n b now) },
       { s with notes := replaceById s.notes id (fun m => applyUpd m b now) })

/-- Boolean test that a list of notes is ordered by creation time
descending (newest first). -/
def sortedByCreatedDesc : List Note → Bool
  | [] => true
  | [_] => true
  | a :: b :: rest => (b.createdAt ≤ a.createdAt) && sortedByCreatedDesc (b :: rest)

/-- Boolean id-uniqueness of the store contents (the spec invariant that
`id` is unique). -/
def distinctIds : List Note → Bool
  | [] => true
  | n :: rest => rest.all (fun m => !(m.id == n.id)) && distinctIds rest

/-- Boolean form of the persisted-data invariant of the spec: every stored
note has non-empty content and a category from the enumerated set. -/
def validStore (s : Store) : Bool :=
  s.notes.all (fun n => !(n.content == "") && categories.contains n.category)

/-- The empty store a fresh database starts from. -/
def emptyStore : Store :=
  { notes := [], nextId := 0 }

/-- A store obtained by one create at instant 1: one note of content `a`. -/
def storeA : Store :=
  (createNote emptyStore 1
    { title := none, content := some "a", category := none, archived := none }).2

/-- The store `storeA` after a second create at the later instant 2. -/
def storeAB : Store :=
  (createNote storeA 2
    { title := none, content := some "b", category := none, archived := none }).2

/-- Looking up an id after `replaceById` finds the image of the note the
lookup found before, provided the rewrite keeps the id. -/
theorem find?_replaceById (l : List Note) (id : Nat) (f : Note → Note) (n : Note)
    (hfind : l.find? (fun m => m.id == id) = some n) (hf : (f n).id = n.id) :
    (replaceById l id f).find? (fun m => m.id == id) = some (f n) := by
  induction l with
  | nil => simp [List.find?] at hfind
  | cons a rest ih =>
    cases hid : (a.id == id) with
    | true =>
      simp only [List.find?_cons, hid] at hfind
      obtain rfl : a = n := by injection hfind
      rw [replaceById, if_pos hid]
      simp only [List.find?_cons, hf, hid]
    | false =>
      simp only [List.find?_cons, hid] at hfind
      rw [replaceById, if_neg (by simp [hid])]
      simp only [List.find?_cons, hid]
      exact ih hfind

/-- With unique ids, no note carrying the removed id survives
`removeById`. -/
theorem find?_removeById (l : List Note) (id : Nat) (h : distinctIds l = true) :
    (removeById l id).find? (fun m => m.id == id) = none := by
  induction l with
  | nil => rfl
  | cons a rest ih =>
    rw [distinctIds, Bool.and_eq_true] at h
    obtain ⟨hall, hrest⟩ := h
    cases hid : (a.id == id) with
    | true =>
      rw [removeById, if_pos hid]
      rw [List.find?_eq_none]
      intro x hx
      have hx2 := List.all_eq_true.mp hall x hx
      simp only [Bool.not_eq_true', beq_eq_false_iff_ne, ne_eq] at hx2
      have ha : a.id = id := by simpa using hid
      simp [ha] at hx2
      simpa using hx2
    | false =>
      rw [removeById, if_neg (by simp [hid])]
      simp only [List.find?_cons, hid]
      exact ih hrest

/-- Rewriting one note with `replaceById` preserves a predicate that every
stored note satisfies, provided the rewrite preserves it. -/
theorem all_replaceById (l : List Note) (id : Nat) (f : Note → Note)
    (p : Note → Bool) (hall : l.all p = true)
    (hf : ∀ n, p n = true → p (f n) = true) :
    (replaceById l id f).all p = true := by
  induction l with
  | nil => rfl
  | cons a rest ih =>
    rw [List.all_cons, Bool.and_eq_true] at hall
    obtain ⟨ha, hrest⟩ := hall
    cases hid : (a.id == id) with
    | true =>
      rw [replaceById, if_pos hid, List.all_cons, Bool.and_eq_true]
      exact ⟨hf a ha, hrest⟩
    | false =>
      rw [replaceById, if_neg (by simp [hid]), List.all_cons, Bool.and_eq_true]
      exact ⟨ha, ih hrest⟩

/-- C1: a create request whose content is missing or is the empty string
fails with HTTP 400 and leaves the store unchanged, both in the POST
`/notes` handler of `src/index.js` (explicit falsiness check before any
store access) and in the POST `/` handler of `src/routes/notes.js` (the
required-content validation of the save, answered with 400). -/
theorem create_empty_content_rejected (s : Store) (now : Nat) (b : CreateBody)
    (h : b.content = none ∨ b.content = some "") :
    createNote s now b = ({ status := 400, note := none }, s)
    ∧ createNoteRoutes s now b = ({ status := 400, note := none }, s) := by
  have hje : jsTrim "" = "" := by decide
  rcases h with h | h <;>
    simp [createNote, createNoteRoutes, h, hje]

/-- Witness for C1 at the concrete request with no content field at all. -/
theorem create_empty_content_rejected_witness :
    createNote emptyStore 0
        { title := none, content := none, category := none, archived := none }
      = ({ status := 400, note := none }, emptyStore)
    ∧ createNoteRoutes emptyStore 0
        { title := none, content := none, category := none, archived := none }
      = ({ status := 400, note := none }, emptyStore) :=
  create_empty_content_rejected emptyStore 0 _ (Or.inl rfl)

/-- C2 counterexample: after two creates at instants 1 and 2, the GET
`/notes` handler of `src/index.js` returns the two active notes in store
order, oldest first — not ordered by creation time descending as the claim
states. -/
theorem listActive_not_newest_first :
    (listActive storeAB).length = 2
    ∧ (listActive storeAB).map Note.createdAt = [1, 2]
    ∧ sortedByCreatedDesc (listActive storeAB) = false := by
  decide

/-- C2 amended: both list handlers return exactly the notes whose archived
flag is false; the GET `/notes` handler of `src/index.js` applies no sort
and keeps store order, while the GET `/` handler of `src/routes/notes.js`
additionally orders them by creation time descending. -/
theorem listActive_members_and_routes_order :
    (∀ (s : Store) (n : Note), n ∈ listActive s ↔ n ∈ s.notes ∧ n.archived = false)
    ∧ (∀ s : Store, List.Sorted newestFirst (listActiveRoutes s)
        ∧ (listActiveRoutes s).Perm (s.notes.filter (fun n => !n.archived))) := by
  constructor
  · intro s n
    simp [listActive, List.mem_filter]
  · intro s
    exact ⟨List.sorted_insertionSort newestFirst _,
           List.perm_insertionSort newestFirst _⟩

/-- C8: the create request with body content `buy milk` and no title or
category succeeds with 201, and the returned note has the default category
`Personal` and archived false (empty default title, fresh id, both
timestamps at the current instant). -/
theorem create_buy_milk (s : Store) (now : Nat) :
    (createNote s now
        { title := none, content := some "buy milk", category := none,
          archived := none }).1
      = { status := 201,
          note := some { id := s.nextId, title := "", content := "buy milk",
                         category := "Personal", archived := false,
                         createdAt := now, updatedAt := now } } := by
  rfl

/-- C9: the create handlers read only `title`, `content` and `category` from
the request body, so a supplied `archived` value never influences the
outcome, and every note a create returns has archived = false. -/
theorem create_ignores_body_archived :
    (∀ (s : Store) (now : Nat) (b : CreateBody),
        createNote s now b = createNote s now { b with archived := none }
        ∧ createNoteRoutes s now b = createNoteRoutes s now { b with archived := none })
    ∧ (∀ (s : Store) (now : Nat) (b : CreateBody),
        (createNote s now b).1.note.all (fun n => !n.archived) = true
        ∧ (createNoteRoutes s now b).1.note.all (fun n => !n.archived) = true) := by
  constructor
  · intro s now b
    rcases b with ⟨t, c, k, a⟩
    exact ⟨rfl, rfl⟩
  · intro s now b
    rcases b with ⟨t, c, k, a⟩
    constructor
    · rcases c with _ | c
      · rfl
      · simp only [createNote]
        split
        · rfl
        · split
          · rfl
          · split <;> rfl
    · rcases c with _ | c
      · rfl
      · simp only [createNoteRoutes]
        split
        · rfl
        · split <;> rfl

/-- C3 counterexample: a create request to `src/index.js` with non-empty
content but a category outside the enumerated set fails with HTTP 500, not
400 — the Mongoose enum validation error is caught by the generic handler
that answers 500. -/
theorem create_invalid_category_is_500 :
    (createNote emptyStore 1
        { title := none, content := some "hi", category := some "Urgent",
          archived := none }).1.status = 500
    ∧ (createNote emptyStore 1
        { title := none, content := some "hi", category := some "Urgent",
          archived := none }).1.status ≠ 400 := by
  decide

/-- C3 amended: in `src/index.js`, only the explicit missing-or-empty
content check on create answers 400; every other invalid field value (a
category outside the enumerated set or whitespace-only content on create,
empty content or invalid category on update) surfaces as 500 through the
catch-all error handler.  In `src/routes/notes.js` the create and patch
handlers answer 400 on those validation failures. -/
theorem validation_failure_statuses :
    (∀ (s : Store) (now : Nat) (b : CreateBody), jsFalsyStr b.content = true →
        createNote s now b = ({ status := 400, note := none }, s))
    ∧ (∀ (s : Store) (now : Nat) (b : CreateBody) (c : String),
        b.content = some c → c ≠ "" →
        (jsTrim c == "" || !(categories.contains (effCategory b.category))) = true →
        createNote s now b = ({ status := 500, note := none }, s))
    ∧ (∀ (s : Store) (now id : Nat) (b : UpdateBody), updOk b = false →
        updateNote s now id b = ({ status := 500, note := none }, s))
    ∧ (∀ (s : Store) (now : Nat) (b : CreateBody), jsFalsyStr b.content = true →
        createNoteRoutes s now b = ({ status := 400, note := none }, s))
    ∧ (∀ (s : Store) (now id : Nat) (b : UpdateBody), updOk b = false →
        updateNoteRoutes s now id b = ({ status := 400, note := none }, s)) := by
  have hje : jsTrim "" = "" := by decide
  refine ⟨?_, ?_, ?_, ?_, ?_⟩
  · intro s now b h
    rcases hb : b.content with _ | c
    · simp [createNote, hb]
    · rw [hb] at h
      have hc : c = "" := by simpa [jsFalsyStr] using h
      simp [createNote, hb, hc]
  · intro s now b c hb hc hinv
    rw [Bool.or_eq_true] at hinv
    simp only [createNote, hb]
    rw [if_neg (by simpa using hc)]
    rcases hinv with h | h
    · rw [if_pos h]
    · rw [Bool.not_eq_eq_eq_not, Bool.not_true] at h
      cases ht : (jsTrim c == "") with
      | true => rfl
      | false => rw [if_neg (by simp [ht]), if_neg (by rw [h]; decide)]
  · intro s now id b h
    simp [updateNote, h]
  · intro s now b h
    rcases hb : b.content with _ | c
    · simp [createNoteRoutes, hb]
    · rw [hb] at h
      have hc : c = "" := by simpa [jsFalsyStr] using h
      simp [createNoteRoutes, hb, hc, hje]
  · intro s now id b h
    simp [updateNoteRoutes, h]

/-- Witness for the amended C3 at concrete requests: a missing-content
create answers 400 in both servers, a create with category `Urgent` answers
500 in `src/index.js`, an update setting content to the empty string answers
500 in `src/index.js` and 400 in `src/routes/notes.js`. -/
theorem validation_failure_statuses_witness :
    createNote emptyStore 3
        { title := none, content := none, category := none, archived := none }
      = ({ status := 400, note := none }, emptyStore)
    ∧ createNote emptyStore 3
        { title := none, content := some "hi", category := some "Urgent",
          archived := none }
      = ({ status := 500, note := none }, emptyStore)
    ∧ updateNote emptyStore 3 0 { title := none, content := some "", category := none }
      = ({ status := 500, note := none }, emptyStore)
    ∧ createNoteRoutes emptyStore 3
        { title := none, content := none, category := none, archived := none }
      = ({ status := 400, note := none }, emptyStore)
    ∧ updateNoteRoutes emptyStore 3 0 { title := none, content := some "", category := none }
      = ({ status := 400, note := none }, emptyStore) :=
  ⟨validation_failure_statuses.1 emptyStore 3 _ (by decide),
   validation_failure_statuses.2.1 emptyStore 3 _ "hi" rfl (by decide) (by decide),
   validation_failure_statuses.2.2.1 emptyStore 3 0 _ (by decide),
   validation_failure_statuses.2.2.2.1 emptyStore 3 _ (by decide),
   validation_failure_statuses.2.2.2.2 emptyStore 3 0 _ (by decide)⟩

/-- The single note persisted in `storeA` (id 0, both timestamps at 1). -/
def noteA : Note :=
  { id := 0, title := "", content := "a", category := "Personal",
    archived := false, createdAt := 1, updatedAt := 1 }

/-- A valid update body used by concrete witnesses. -/
def updBodyW : UpdateBody :=
  { title := some " T ", content := some " new ", category := some "Work" }

/-- C4: for a valid update body, the PUT `/notes/:id` handler of
`src/index.js` answers 404 exactly when no note carries the id (leaving the
store unchanged), and on an existing note it answers 200 with the note that
has exactly the supplied fields applied (trim setters included), a
refreshed `updatedAt`, and untouched id, `createdAt`, `archived` and
unsupplied fields — and persists that same note. -/
theorem update_spec (s : Store) (now id : Nat) (b : UpdateBody)
    (hb : updOk b = true) :
    ((updateNote s now id b).1.status = 404 ↔ findById s id = none)
    ∧ (findById s id = none →
        updateNote s now id b = ({ status := 404, note := none }, s))
    ∧ (∀ n, findById s id = some n →
        (updateNote s now id b).1
            = { status := 200, note := some (applyUpd n b now) }
        ∧ findById (updateNote s now id b).2 id = some (applyUpd n b now)
        ∧ (applyUpd n b now).updatedAt = now
        ∧ (applyUpd n b now).id = n.id
        ∧ (applyUpd n b now).createdAt = n.createdAt
        ∧ (applyUpd n b now).archived = n.archived
        ∧ (b.title = none → (applyUpd n b now).title = n.title)
        ∧ (b.content = none → (applyUpd n b now).content = n.content)
        ∧ (b.category = none → (applyUpd n b now).category = n.category)
        ∧ (∀ t, b.title = some t → (applyUpd n b now).title = jsTrim t)
        ∧ (∀ c, b.content = some c → (applyUpd n b now).content = jsTrim c)
        ∧ (∀ k, b.category = some k → (applyUpd n b now).category = k)) := by
  have hb2 : (!updOk b) = false := by rw [hb]; rfl
  rcases hf : findById s id with _ | n
  · refine ⟨by simp [updateNote, hb2, hf], ?_, ?_⟩
    · intro _
      simp [updateNote, hb2, hf]
    · intro n hn
      cases hn
  · have hupd : updateNote s now id b
        = ({ status := 200, note := some (applyUpd n b now) },
           { s with notes := replaceById s.notes id (fun m => applyUpd m b now) }) := by
      rw [updateNote, hb2]
      simp only [Bool.false_eq_true, if_false]
      rw [hf]
    refine ⟨by rw [hupd]; simp [hf], ?_, ?_⟩
    · intro hcontra
      cases hcontra
    · intro n2 hn2
      obtain rfl : n = n2 := by injection hn2
      refine ⟨by rw [hupd], ?_, rfl, rfl, rfl, rfl, ?_, ?_, ?_, ?_, ?_, ?_⟩
      · rw [hupd]
        exact find?_replaceById s.notes id _ n hf rfl
      · intro ht
        simp [applyUpd, ht]
      · intro hc
        simp [applyUpd, hc]
      · intro hk
        simp [applyUpd, hk]
      · intro t ht
        simp [applyUpd, ht]
      · intro c hc
        simp [applyUpd, hc]
      · intro k hk
        simp [applyUpd, hk]

/-- Witness for C4 at the one-note store: the update of note 0 with a valid
body answers 200 with the updated note. -/
theorem update_spec_witness :
    (updateNote storeA 7 0 updBodyW).1
      = { status := 200, note := some (applyUpd noteA updBodyW 7) } :=
  ((update_spec storeA 7 0 updBodyW (by decide)).2.2 noteA (by decide)).1

/-- C5: archiving then unarchiving an existing note answers 200 both times
and leaves the note with archived = false and its title, content, category
and `createdAt` exactly as before (only `updatedAt` moves to the second
instant). -/
theorem archive_unarchive_roundtrip (s : Store) (now1 now2 id : Nat) (n : Note)
    (h : findById s id = some n) :
    (setArchived s now1 id (some true)).1.status = 200
    ∧ (setArchived (setArchived s now1 id (some true)).2 now2 id (some false)).1.status = 200
    ∧ findById (setArchived (setArchived s now1 id (some true)).2 now2 id (some false)).2 id
        = some { n with archived := false, updatedAt := now2 } := by
  have e1 : setArchived s now1 id (some true)
      = ({ status := 200, note := some { n with archived := true, updatedAt := now1 } },
         { s with notes := replaceById s.notes id (fun m => { m with archived := true, updatedAt := now1 }) }) := by
    rw [setArchived, h]
  have h1 : findById (setArchived s now1 id (some true)).2 id
      = some { n with archived := true, updatedAt := now1 } := by
    rw [e1]
    exact find?_replaceById s.notes id _ n h rfl
  have e2 : setArchived (setArchived s now1 id (some true)).2 now2 id (some false)
      = ({ status := 200, note := some { n with archived := false, updatedAt := now2 } },
         { (setArchived s now1 id (some true)).2 with notes := replaceById ((setArchived s now1 id (some true)).2).notes id (fun m => { m with archived := false, updatedAt := now2 }) }) := by
    rw [setArchived, h1]
  refine ⟨by rw [e1], by rw [e2], ?_⟩
  rw [e2]
  exact find?_replaceById ((setArchived s now1 id (some true)).2).notes id _
    { n with archived := true, updatedAt := now1 } h1 rfl

/-- Witness for C5 at the one-note store. -/
theorem archive_unarchive_roundtrip_witness :
    (setArchived storeA 5 0 (some true)).1.status = 200
    ∧ (setArchived (setArchived storeA 5 0 (some true)).2 6 0 (some false)).1.status = 200
    ∧ findById (setArchived (setArchived storeA 5 0 (some true)).2 6 0 (some false)).2 0
        = some { noteA with archived := false, updatedAt := 6 } :=
  archive_unarchive_roundtrip storeA 5 6 0 noteA (by decide)

/-- C10: a PUT `/notes/:id/archive` request on an existing note whose body
has no `archived` field answers 200, and the stored and returned note keeps
its archived flag (only `updatedAt` is refreshed, as the stripped-out
`undefined` leaves an update that touches nothing else). -/
theorem archive_without_flag_keeps_archived (s : Store) (now id : Nat) (n : Note)
    (h : findById s id = some n) :
    (setArchived s now id none).1
        = { status := 200, note := some { n with updatedAt := now } }
    ∧ findById (setArchived s now id none).2 id = some { n with updatedAt := now }
    ∧ ({ n with updatedAt := now } : Note).archived = n.archived := by
  have e1 : setArchived s now id none
      = ({ status := 200, note := some { n with updatedAt := now } },
         { s with notes := replaceById s.notes id (fun m => { m with updatedAt := now }) }) := by
    rw [setArchived, h]
  refine ⟨by rw [e1], ?_, rfl⟩
  rw [e1]
  exact find?_replaceById s.notes id _ n h rfl

/-- Witness for C10 at the one-note store. -/
theorem archive_without_flag_keeps_archived_witness :
    (setArchived storeA 9 0 none).1
        = { status := 200, note := some { noteA with updatedAt := 9 } }
    ∧ findById (setArchived storeA 9 0 none).2 0 = some { noteA with updatedAt := 9 }
    ∧ ({ noteA with updatedAt := 9 } : Note).archived = noteA.archived :=
  archive_without_flag_keeps_archived storeA 9 0 noteA (by decide)

/-- Answering a delete on a store where the id does not resolve gives
status 404. -/
theorem delete_status404_of_notfound (s : Store) (id : Nat)
    (h : findById s id = none) : (deleteNote s id).1.status = 404 := by
  rw [deleteNote, h]

/-- C6: with unique ids (the store invariant), DELETE `/notes/:id` answers
404 exactly when no note carries the id; after a delete the id no longer
resolves (the record is gone for good), so deleting the same id a second
time answers 404. -/
theorem delete_notfound_and_twice (s : Store) (id : Nat)
    (h : distinctIds s.notes = true) :
    ((deleteNote s id).1.status = 404 ↔ findById s id = none)
    ∧ findById (deleteNote s id).2 id = none
    ∧ (deleteNote (deleteNote s id).2 id).1.status = 404 := by
  rcases hf : findById s id with _ | n
  · refine ⟨by simp [deleteNote, hf], by simp [deleteNote, hf], ?_⟩
    have h2 : findById (deleteNote s id).2 id = none := by
      simp [deleteNote, hf]
    exact delete_status404_of_notfound _ id h2
  · have h2 : findById (deleteNote s id).2 id = none := by
      simp only [deleteNote, hf]
      exact find?_removeById s.notes id h
    refine ⟨by simp [deleteNote, hf], h2, delete_status404_of_notfound _ id h2⟩

/-- Witness for C6 at the one-note store. -/
theorem delete_notfound_and_twice_witness :
    ((deleteNote storeA 0).1.status = 404 ↔ findById storeA 0 = none)
    ∧ findById (deleteNote storeA 0).2 0 = none
    ∧ (deleteNote (deleteNote storeA 0).2 0).1.status = 404 :=
  delete_notfound_and_twice storeA 0 (by decide)

/-- A note update with a valid body keeps the stored-data invariant. -/
theorem applyUpd_preserves (u : UpdateBody) (now : Nat) (hu : updOk u = true)
    (m : Note)
    (hm : (!(m.content == "") && categories.contains m.category) = true) :
    (!((applyUpd m u now).content == "")
      && categories.contains (applyUpd m u now).category) = true := by
  rw [updOk, Bool.and_eq_true] at hu
  obtain ⟨hc, hk⟩ := hu
  rw [Bool.and_eq_true] at hm ⊢
  obtain ⟨hm1, hm2⟩ := hm
  constructor
  · rcases hcc : u.content with _ | c
    · simpa [applyUpd, hcc] using hm1
    · rw [hcc] at hc
      simpa [applyUpd, hcc] using hc
  · rcases hkk : u.category with _ | k
    · simpa [applyUpd, hkk] using hm2
    · rw [hkk] at hk
      simpa [applyUpd, hkk] using hk

/-- C7: the persisted-data invariant — every stored note has non-empty
content and a category from the enumerated set — is preserved by create,
update and archive on the `src/index.js` store (create validates before
persisting, update validates the supplied fields, archive touches no
validated field). -/
theorem invariant_preserved (s : Store) (now id : Nat) (b : CreateBody)
    (u : UpdateBody) (a : Option Bool) (h : validStore s = true) :
    validStore (createNote s now b).2 = true
    ∧ validStore (updateNote s now id u).2 = true
    ∧ validStore (setArchived s now id a).2 = true := by
  refine ⟨?_, ?_, ?_⟩
  · rcases hbc : b.content with _ | c
    · simpa [createNote, hbc] using h
    · simp only [createNote, hbc]
      split
      · exact h
      · split
        · exact h
        · split
          · next hcat =>
            rename_i hjt
            simp only [validStore] at h ⊢
            rw [List.all_append, h]
            simp only [Bool.true_and, List.all_cons, List.all_nil, Bool.and_true]
            rw [Bool.and_eq_true]
            refine ⟨?_, hcat⟩
            rw [Bool.not_eq_true] at hjt
            simp [hjt]
          · exact h
  · cases hu : updOk u with
    | false => simpa [updateNote, hu] using h
    | true =>
      rcases hf : findById s id with _ | n
      · simpa [updateNote, hu, hf] using h
      · simp only [updateNote, hu, Bool.not_true, Bool.false_eq_true, if_false, hf]
        exact all_replaceById s.notes id _ _ h
          (fun m hm => applyUpd_preserves u now hu m hm)
  · rcases hf : findById s id with _ | n
    · simpa [setArchived, hf] using h
    · simp only [setArchived, hf]
      refine all_replaceById s.notes id _ _ h ?_
      intro m hm
      cases a <;> simpa using hm

/-- Witness for C7 at the one-note store with concrete valid bodies. -/
theorem invariant_preserved_witness :
    validStore (createNote storeA 4
        { title := none, content := some "x", category := some "Work",
          archived := none }).2 = true
    ∧ validStore (updateNote storeA 4 0 updBodyW).2 = true
    ∧ validStore (setArchived storeA 4 0 (some true)).2 = true :=
  invariant_preserved storeA 4 0 _ updBodyW (some true) (by decide)

/-- C4 counterexample: an update whose body sets content to the empty
string fails with 500 even though no note with the requested id exists —
the update validation of `findByIdAndUpdate` rejects before the lookup, so
the handler does not answer 404 for the absent id, refuting the
if-and-only-if as stated. -/
theorem update_invalid_body_absent_id_not_404 :
    findById emptyStore 99 = none
    ∧ (updateNote emptyStore 0 99
        { title := none, content := some "", category := none }).1.status = 500
    ∧ (updateNote emptyStore 0 99
        { title := none, content := some "", category := none }).1.status ≠ 404 := by
  decide

/-- C5 counterexample: archiving the stored note at instant 5 returns it
with a refreshed `updatedAt` (5 instead of 1), so the handler does not
change only the archived flag — the automatic timestamp moves too. -/
theorem setArchived_also_changes_updatedAt :
    findById storeA 0 = some noteA
    ∧ noteA.updatedAt = 1
    ∧ (setArchived storeA 5 0 (some true)).1.note
        = some { noteA with archived := true, updatedAt := 5 }
    ∧ (setArchived storeA 5 0 (some true)).1.note
        ≠ some { noteA with archived := true } := by
  decide

end NotesServer
